import Mathlib

/-!
# Verification of `claude_code_run.py`

Shallow embedding of the PTY wrapper script `.scripts/claude_code_run.py`:
the streaming ANSI escape-sequence stripper `_AnsiStripper`, the event loop
of `run_with_pty`, and the argument handling of `main`, together with proofs
of the behavioural properties stated in the specification.

Bytes are modelled as natural numbers (each in `0..255` in practice; none of
the definitions performs arithmetic on them, only equality and range tests,
so no modular reduction is needed).
-/

namespace ClaudeCodeRun

/-- The parser state of `_AnsiStripper`: the Python field `self._state`,
one of the strings `"text" | "esc" | "csi" | "osc" | "dcs"`. -/
inductive StripState where
  | text
  | esc
  | csi
  | osc
  | dcs
deriving DecidableEq, Repr

/-- The mutable state of an `_AnsiStripper` instance: `self._state`,
`self._osc_esc` and `self._dcs_esc`. -/
structure AnsiStripper where
  state : StripState
  oscEsc : Bool
  dcsEsc : Bool
deriving DecidableEq, Repr

/-- `_AnsiStripper.__init__`: state `"text"`, both flags `False`. -/
def AnsiStripper.init : AnsiStripper :=
  { state := .text, oscEsc := false, dcsEsc := false }

/-- One iteration of the `while i < n` loop in `_AnsiStripper.feed`,
processing the single byte `data[i]` and returning the updated state together
with the bytes appended to `out` (either `[b]` or `[]`).

Notes on fidelity: in the `"esc"` branch the Python code re-reads `data[i]`
into `b2` (the same byte as `b`) and its guard `if i >= n: break` is
unreachable inside `while i < n`, so the loop is an exact per-byte fold. -/
def AnsiStripper.feedByte (s : AnsiStripper) (b : Nat) : AnsiStripper × List Nat :=
  match s.state with
  | .text =>
      if b = 0x1B then ({ s with state := .esc }, [])
      else (s, [b])
  | .esc =>
      if b = 0x5B then ({ s with state := .csi }, [])
      else if b = 0x5D then ({ s with state := .osc, oscEsc := false }, [])
      else if b = 0x50 then ({ s with state := .dcs, dcsEsc := false }, [])
      else ({ s with state := .text }, [])
  | .csi =>
      if 0x40 ≤ b ∧ b ≤ 0x7E then ({ s with state := .text }, [])
      else (s, [])
  | .osc =>
      if s.oscEsc then
        if b = 0x5C then ({ s with state := .text, oscEsc := false }, [])
        else ({ s with oscEsc := false }, [])
      else if b = 0x07 then ({ s with state := .text }, [])
      else if b = 0x1B then ({ s with oscEsc := true }, [])
      else (s, [])
  | .dcs =>
      if s.dcsEsc then
        if b = 0x5C then ({ s with state := .text, dcsEsc := false }, [])
        else ({ s with dcsEsc := false }, [])
      else if b = 0x1B then ({ s with dcsEsc := true }, [])
      else (s, [])

/-- `_AnsiStripper.feed(data)`: fold `feedByte` over the chunk, returning the
final state and the returned `bytes(out)`. -/
def AnsiStripper.feed (s : AnsiStripper) (data : List Nat) : AnsiStripper × List Nat :=
  match data with
  | [] => (s, [])
  | b :: rest =>
      let r1 := s.feedByte b
      let r2 := r1.1.feed rest
      (r2.1, r1.2 ++ r2.2)

/-- A sequence of `feed` calls on one instance: final state and the
concatenation of all returned outputs. -/
def AnsiStripper.feedMany (s : AnsiStripper) (chunks : List (List Nat)) :
    AnsiStripper × List Nat :=
  match chunks with
  | [] => (s, [])
  | c :: cs =>
      let r1 := s.feed c
      let r2 := r1.1.feedMany cs
      (r2.1, r1.2 ++ r2.2)

/-- A sequence of `feed` calls on one instance, keeping the individual
per-call return values. -/
def AnsiStripper.feedOutputs (s : AnsiStripper) (chunks : List (List Nat)) :
    List (List Nat) :=
  match chunks with
  | [] => []
  | c :: cs => (s.feed c).2 :: (s.feed c).1.feedOutputs cs

theorem AnsiStripper.feed_append (s : AnsiStripper) (a b : List Nat) :
    s.feed (a ++ b) =
      ((s.feed a).1.feed b |>.1, (s.feed a).2 ++ ((s.feed a).1.feed b).2) := by
  induction a generalizing s with
  | nil => simp [AnsiStripper.feed]
  | cons x xs ih =>
      simp only [List.cons_append, AnsiStripper.feed, List.append_eq]
      rw [ih]
      simp [List.append_assoc]

theorem AnsiStripper.feedByte_snd (s : AnsiStripper) (b : Nat) :
    (s.feedByte b).2 = [b] ∨ (s.feedByte b).2 = [] := by
  obtain ⟨st, o, d⟩ := s
  cases st <;> simp only [AnsiStripper.feedByte] <;> split_ifs <;> simp

theorem AnsiStripper.feedByte_esc_free (s : AnsiStripper) (b : Nat) :
    0x1B ∉ (s.feedByte b).2 := by
  obtain ⟨st, o, d⟩ := s
  cases st <;> simp only [AnsiStripper.feedByte] <;> split_ifs <;> simp_all
  omega

theorem AnsiStripper.feed_sublist (s : AnsiStripper) (data : List Nat) :
    List.Sublist (s.feed data).2 data := by
  induction data generalizing s with
  | nil => simp [AnsiStripper.feed]
  | cons b rest ih =>
      simp only [AnsiStripper.feed]
      rcases s.feedByte_snd b with h | h <;> rw [h]
      · exact List.Sublist.cons₂ b (ih _)
      · exact List.Sublist.cons b (ih _)

theorem AnsiStripper.feed_esc_free (s : AnsiStripper) (data : List Nat) :
    0x1B ∉ (s.feed data).2 := by
  induction data generalizing s with
  | nil => simp [AnsiStripper.feed]
  | cons b rest ih =>
      simp only [AnsiStripper.feed, List.mem_append, not_or]
      exact ⟨s.feedByte_esc_free b, ih _⟩

theorem AnsiStripper.feedMany_eq_feed_join (s : AnsiStripper)
    (chunks : List (List Nat)) : s.feedMany chunks = s.feed chunks.flatten := by
  induction chunks generalizing s with
  | nil => simp [AnsiStripper.feedMany, AnsiStripper.feed]
  | cons c cs ih =>
      simp only [AnsiStripper.feedMany, ih, List.flatten_cons,
        AnsiStripper.feed_append]

theorem AnsiStripper.feedOutputs_mem_esc_free (s : AnsiStripper)
    (chunks : List (List Nat)) :
    ∀ out ∈ s.feedOutputs chunks, 0x1B ∉ out := by
  induction chunks generalizing s with
  | nil => simp [AnsiStripper.feedOutputs]
  | cons c cs ih =>
      intro out hmem
      simp only [AnsiStripper.feedOutputs, List.mem_cons] at hmem
      rcases hmem with h | h
      · exact h ▸ s.feed_esc_free c
      · exact ih _ out h

/-- **C1** (Filter chunk-invariance): for every byte stream and every way of
splitting it into consecutive chunks, feeding the chunks one by one to a
single `_AnsiStripper` instance and concatenating the returned outputs yields
the same byte string as feeding the whole stream to a fresh instance in one
`feed` call. -/
theorem feed_chunk_invariance (chunks : List (List Nat)) :
    (AnsiStripper.init.feedMany chunks).2 =
      (AnsiStripper.init.feed chunks.flatten).2 := by
  rw [AnsiStripper.feedMany_eq_feed_join]

/-- **C5**, counterexample: a chunk containing no ESC byte is *not* always
returned unchanged by `feed`. After feeding `ESC [` the instance is inside a
control sequence, and the ESC-free chunk `33 31 6D` (`"31m"`) is swallowed
entirely, exactly as in the specification's own split-sequence example. -/
theorem feed_no_esc_not_identity_counterexample :
    (∀ b ∈ [0x33, 0x31, 0x6D], b ≠ (0x1B : Nat)) ∧
      ((AnsiStripper.init.feed [0x1B, 0x5B]).1.feed [0x33, 0x31, 0x6D]).2 ≠
        [0x33, 0x31, 0x6D] := by
  decide

/-- **C5**, amended: for any chunk of bytes containing no ESC byte (`0x1B`),
a `feed` call on an `_AnsiStripper` whose state machine is in the plain-text
state (in particular on a fresh instance) returns the chunk unchanged and
leaves the instance state unchanged. -/
theorem feed_plain_text_identity (s : AnsiStripper) (data : List Nat)
    (hstate : s.state = .text) (hesc : ∀ b ∈ data, b ≠ 0x1B) :
    s.feed data = (s, data) := by
  induction data with
  | nil => simp [AnsiStripper.feed]
  | cons b rest ih =>
      have hb : b ≠ 0x1B := hesc b (List.mem_cons_self b rest)
      have hstep : s.feedByte b = (s, [b]) := by
        simp [AnsiStripper.feedByte, hstate, hb]
      simp only [AnsiStripper.feed, hstep]
      rw [ih fun x hx => hesc x (List.mem_cons_of_mem b hx)]
      simp

theorem feed_plain_text_identity_witness :
    AnsiStripper.init.feed [0x68, 0x69] = (AnsiStripper.init, [0x68, 0x69]) :=
  feed_plain_text_identity AnsiStripper.init [0x68, 0x69] rfl (by decide)

/-- **C6**: across any sequence of `feed` calls on one instance, the
concatenated output is a sublist of the concatenated input: every returned
byte occurs in the input, in the original order, with zero bytes added or
reordered. (Each emitted byte is one the state machine consumed in its
plain-text state, the filter's notion of plain text.) -/
theorem feed_output_sublist (chunks : List (List Nat)) :
    List.Sublist (AnsiStripper.init.feedMany chunks).2 chunks.flatten := by
  rw [AnsiStripper.feedMany_eq_feed_join]
  exact AnsiStripper.feed_sublist _ _

/-- **C7**: feeding a fresh `_AnsiStripper` the bytes
`1B 5B 33 31 6D 48 45 4C 4C 4F 1B 5B 30 6D` (`ESC [ 3 1 m HELLO ESC [ 0 m`)
in one call returns exactly the bytes of `HELLO`. -/
theorem feed_csi_example :
    (AnsiStripper.init.feed
        [0x1B, 0x5B, 0x33, 0x31, 0x6D, 0x48, 0x45, 0x4C, 0x4C, 0x4F,
          0x1B, 0x5B, 0x30, 0x6D]).2 =
      [0x48, 0x45, 0x4C, 0x4C, 0x4F] := by
  decide

/-- **C10**: for every sequence of `feed` calls starting from a freshly
constructed `_AnsiStripper`, no returned output chunk contains the ESC byte
`0x1B`. -/
theorem feed_output_esc_free (chunks : List (List Nat)) :
    ∀ out ∈ AnsiStripper.init.feedOutputs chunks, 0x1B ∉ out :=
  AnsiStripper.init.feedOutputs_mem_esc_free chunks

theorem feed_output_esc_free_witness :
    (0x1B : Nat) ∉ [0x48] :=
  feed_output_esc_free [[0x1B, 0x5B, 0x6D, 0x48]] [0x48] (by decide)

/-!
## The `run_with_pty` event loop

The loop (lines 199-277 of the script) interacts with the operating system
through `select.select`, `os.read`, `os.write`, `p.poll`, `p.wait`,
`time.monotonic` and `termios`. Each iteration's observable environment is
recorded in a `LoopEvent`; a run is driven by a finite list of events (the
trace), and the loop is a structural recursion over that list.
-/

/-- Result of `os.read(master_fd, 4096)` on the controller endpoint:
returned data (possibly empty), an `OSError` with `errno == EIO` (the
device-closed condition), or an `OSError` with any other `errno`. -/
inductive MasterRead where
  | got (data : List Nat)
  | eio
  | fatal
deriving DecidableEq, Repr

/-- Result of `os.read(stdin_fd, 1024)`: data or an `OSError`. -/
inductive StdinRead where
  | got (data : List Nat)
  | err
deriving DecidableEq, Repr

/-- The observable environment of one iteration of the `while True` loop:
the value of `time.monotonic() - start` at the top of the iteration, the
readiness sets returned by `select.select`, the outcomes of the reads, the
two `p.poll() is not None` checks (line 234 and line 249), and the chunks
returned by the successive `os.read` calls of the final drain loop (that
loop stops at the first empty read; an `OSError` inside it is absorbed by
`except OSError: pass` and is modelled by the drain list simply ending). -/
structure LoopEvent where
  elapsed : Nat
  masterReady : Bool
  masterRead : MasterRead
  stdinReady : Bool
  stdinRead : StdinRead
  poll1 : Bool
  poll2 : Bool
  drain : List (List Nat)
deriving DecidableEq, Repr

/-- The arguments of `run_with_pty` together with the session facts fixed
before the loop starts: whether `sys.stdin.isatty()`, whether
`tcgetattr`/`tty.setraw` succeeded (on failure `stdin_fd` is reset to `None`
and `raw_mode` stays `False`), the caller's terminal attributes captured by
`tcgetattr`, the attribute value while in raw mode, and the exit status the
child reports through `p.wait()`. Timeout comparisons use naturals in place
of Python floats; only the order relation matters to the loop. -/
structure RelayConfig where
  timeoutS : Option Nat
  stripAnsi : Bool
  childStatus : Nat
  isatty : Bool
  rawOk : Bool
  origAttrs : Nat
  rawAttrs : Nat
deriving DecidableEq, Repr

/-- `stdin_fd is not None`: stdin is a tty and raw-mode entry succeeded. -/
def RelayConfig.stdinPresent (cfg : RelayConfig) : Bool :=
  cfg.isatty && cfg.rawOk

/-- The `raw_mode` flag: set exactly when `tty.setraw` succeeded. -/
def RelayConfig.rawMode (cfg : RelayConfig) : Bool :=
  cfg.isatty && cfg.rawOk

/-- `timeout_s is not None and (time.monotonic() - start) > timeout_s`. -/
def RelayConfig.timeoutHit (cfg : RelayConfig) (ev : LoopEvent) : Bool :=
  match cfg.timeoutS with
  | some t => decide (ev.elapsed > t)
  | none => false

/-- The mutable state the loop threads between iterations: the stripper
instance plus the traces of payloads written to `sys.stdout.buffer` and of
payloads passed to `os.write(master_fd, ...)`. -/
structure LoopState where
  stripper : AnsiStripper
  stdoutWrites : List (List Nat)
  masterWrites : List (List Nat)
deriving DecidableEq, Repr

def LoopState.start : LoopState :=
  { stripper := AnsiStripper.init, stdoutWrites := [], masterWrites := [] }

/-- `if stripper is not None: data = stripper.feed(data)` — the stripper
exists exactly when `strip_ansi` was requested. -/
def RelayConfig.applyStrip (cfg : RelayConfig) (st : LoopState)
    (data : List Nat) : LoopState × List Nat :=
  if cfg.stripAnsi then
    let r := st.stripper.feed data
    ({ st with stripper := r.1 }, r.2)
  else (st, data)

/-- `sys.stdout.buffer.write(data)` followed by `flush()`. -/
def LoopState.writeStdout (st : LoopState) (data : List Nat) : LoopState :=
  { st with stdoutWrites := st.stdoutWrites ++ [data] }

/-- Outcome of the `if master_fd in ready` block: fall through to the rest
of the iteration, `break` out of the loop (empty read with the child already
exited), or re-raise the non-EIO `OSError` (line 224). -/
inductive MasterStep where
  | cont (st : LoopState)
  | broke (st : LoopState)
  | raised (st : LoopState)
deriving DecidableEq, Repr

/-- The `if master_fd in ready` block (lines 216-235). An EIO read error is
converted to empty data; empty data with `p.poll() is not None` breaks the
loop; nonempty data is passed through the stripper when configured and
written to stdout when the stripped result is nonempty. -/
def masterBranch (cfg : RelayConfig) (st : LoopState) (ev : LoopEvent) :
    MasterStep :=
  if ev.masterReady then
    match ev.masterRead with
    | .fatal => .raised st
    | .eio =>
        if ev.poll1 then .broke st else .cont st
    | .got d =>
        if d = [] then
          if ev.poll1 then .broke st else .cont st
        else
          let r := cfg.applyStrip st d
          .cont (if r.2 = [] then r.1 else r.1.writeStdout r.2)
  else .cont st

/-- The `if stdin_fd is not None and stdin_fd in ready` block (lines
237-247): a read error yields `in_data = b""`; nonempty data is written to
the controller endpoint unmodified (`os.write` failure is absorbed by
`except OSError: pass` and does not change any tracked state; the attempted
payload is recorded). -/
def stdinBranch (cfg : RelayConfig) (st : LoopState) (ev : LoopEvent) :
    LoopState :=
  if cfg.stdinPresent && ev.stdinReady then
    let inData := match ev.stdinRead with
      | .got d => d
      | .err => []
    if inData = [] then st
    else { st with masterWrites := st.masterWrites ++ [inData] }
  else st

/-- The drain loop (lines 250-262): read until an empty read (an `OSError`
is absorbed and likewise ends the loop), stripping and forwarding each
nonempty chunk. -/
def drainFold (cfg : RelayConfig) (st : LoopState) :
    List (List Nat) → LoopState
  | [] => st
  | d :: ds =>
      if d = [] then st
      else
        let r := cfg.applyStrip st d
        drainFold cfg (if r.2 = [] then r.1 else r.1.writeStdout r.2) ds

/-- How a run of the loop ended: `return 124` on the timeout path, `break`
(followed by `return p.wait()`), an exception propagating out of the loop
body, or the event trace running out with the loop still spinning. -/
inductive LoopRes where
  | timedOut
  | exited
  | raised
  | pending
deriving DecidableEq, Repr

/-- The `while True` loop (lines 201-263): the timeout check runs first each
iteration; then the controller branch, the stdin branch, and the
`if p.poll() is not None` drain-and-break check. -/
def runLoop (cfg : RelayConfig) (st : LoopState) :
    List LoopEvent → LoopState × LoopRes
  | [] => (st, .pending)
  | ev :: rest =>
      if cfg.timeoutHit ev then (st, .timedOut)
      else
        match masterBranch cfg st ev with
        | .raised st1 => (st1, .raised)
        | .broke st1 => (st1, .exited)
        | .cont st1 =>
            let st2 := stdinBranch cfg st1 ev
            if ev.poll2 then (drainFold cfg st2 ev.drain, .exited)
            else runLoop cfg st2 rest

/-- The observable outcome of `run_with_pty`: `some (Except.ok code)` when
it returns `code`, `some (Except.error ())` when it re-raises the loop's
exception, `none` when the trace ends with the loop still running; plus the
caller's terminal attributes after the call and the two write traces. -/
structure RelayResult where
  result : Option (Except Unit Nat)
  finalAttrs : Nat
  stdoutWrites : List (List Nat)
  masterWrites : List (List Nat)
deriving Repr

/-- `run_with_pty` around the loop: the timeout path returns 124, the break
path returns `p.wait()`, an exception propagates; in every one of those
cases the `finally` block (lines 267-277) closes the controller endpoint and
then restores the captured terminal attributes with `tcsetattr` whenever raw
mode was entered (`tcsetattr` is modelled as succeeding). When raw mode was
never entered the attributes were never changed. While the loop is still
running (trace exhausted) a raw-mode terminal still holds the raw
attributes. -/
def runWithPty (cfg : RelayConfig) (events : List LoopEvent) : RelayResult :=
  let r := runLoop cfg LoopState.start events
  let result : Option (Except Unit Nat) :=
    match r.2 with
    | .timedOut => some (Except.ok 124)
    | .exited => some (Except.ok cfg.childStatus)
    | .raised => some (Except.error ())
    | .pending => none
  let finalAttrs : Nat :=
    match r.2 with
    | .pending => if cfg.rawMode then cfg.rawAttrs else cfg.origAttrs
    | _ => cfg.origAttrs
  { result := result, finalAttrs := finalAttrs,
    stdoutWrites := r.1.stdoutWrites, masterWrites := r.1.masterWrites }

/-- **C2**, counterexample: `run_with_pty` can return 124 although no
timeout was configured at all — a child whose own exit status is 124 (here:
the configured timeout is `None`, the first read hits the EIO end-of-file
condition with the child already exited, and `p.wait()` reports 124). So 124
is not returned *only* on the timeout path. -/
theorem exit_code_124_without_timeout_counterexample :
    (runWithPty
        { timeoutS := none, stripAnsi := true, childStatus := 124,
          isatty := false, rawOk := false, origAttrs := 0, rawAttrs := 1 }
        [{ elapsed := 0, masterReady := true, masterRead := .eio,
           stdinReady := false, stdinRead := .err, poll1 := true,
           poll2 := false, drain := [] }]).result = some (Except.ok 124) ∧
      (RelayConfig.timeoutS
          { timeoutS := none, stripAnsi := true, childStatus := 124,
            isatty := false, rawOk := false, origAttrs := 0,
            rawAttrs := 1 }) = none :=
  ⟨rfl, rfl⟩

/-- **C2**, amended: `run_with_pty` returns the child's real exit status
(`p.wait()`) when the loop ends by `break`, returns 124 when the timeout
path triggered (discarding the child's status), and an exit code of 124
implies the timeout path triggered unless the child itself exited with
status 124. -/
theorem exit_code_characterization (cfg : RelayConfig)
    (events : List LoopEvent) :
    ((runLoop cfg LoopState.start events).2 = LoopRes.exited →
        (runWithPty cfg events).result = some (Except.ok cfg.childStatus)) ∧
      ((runLoop cfg LoopState.start events).2 = LoopRes.timedOut →
        (runWithPty cfg events).result = some (Except.ok 124)) ∧
      (cfg.childStatus ≠ 124 →
        (runWithPty cfg events).result = some (Except.ok 124) →
        (runLoop cfg LoopState.start events).2 = LoopRes.timedOut) := by
  refine ⟨fun h => ?_, fun h => ?_, fun hne hres => ?_⟩
  · simp [runWithPty, h]
  · simp [runWithPty, h]
  · cases h : (runLoop cfg LoopState.start events).2 <;>
      simp [runWithPty, h] at hres ⊢
    exact absurd hres hne

theorem exit_code_characterization_witness :
    (runWithPty
        { timeoutS := some 0, stripAnsi := true, childStatus := 7,
          isatty := false, rawOk := false, origAttrs := 0, rawAttrs := 1 }
        [{ elapsed := 1, masterReady := false, masterRead := .eio,
           stdinReady := false, stdinRead := .err, poll1 := false,
           poll2 := false, drain := [] }]).result = some (Except.ok 124) :=
  (exit_code_characterization _ _).2.1 (by decide)

/-- **C3**: whenever the terminal snapshot was captured and raw mode entered
(`raw_mode = True`), the `finally` block restores the original terminal
attributes before `run_with_pty` returns, on every exit path — normal child
exit, timeout, and an error raised inside the event loop alike. -/
theorem terminal_restored_on_exit (cfg : RelayConfig)
    (events : List LoopEvent) (r : Except Unit Nat)
    (_hraw : cfg.rawMode = true)
    (hret : (runWithPty cfg events).result = some r) :
    (runWithPty cfg events).finalAttrs = cfg.origAttrs := by
  cases h : (runLoop cfg LoopState.start events).2 <;>
    simp [runWithPty, h] at hret ⊢

theorem terminal_restored_on_exit_witness :
    (runWithPty
        { timeoutS := none, stripAnsi := true, childStatus := 0,
          isatty := true, rawOk := true, origAttrs := 5, rawAttrs := 7 }
        [{ elapsed := 0, masterReady := true, masterRead := .fatal,
           stdinReady := false, stdinRead := .err, poll1 := false,
           poll2 := false, drain := [] }]).finalAttrs = 5 :=
  terminal_restored_on_exit _ _ (Except.error ()) (by decide) rfl

theorem masterBranch_ne_raised (cfg : RelayConfig) (st st1 : LoopState)
    (ev : LoopEvent) (h : ev.masterRead ≠ MasterRead.fatal) :
    masterBranch cfg st ev ≠ MasterStep.raised st1 := by
  unfold masterBranch
  rcases hr : ev.masterRead with d | _ | _ <;> simp [hr] at h ⊢ <;>
    split_ifs <;> simp

theorem runLoop_ne_raised (cfg : RelayConfig) (st : LoopState)
    (events : List LoopEvent)
    (h : ∀ ev ∈ events, ev.masterRead ≠ MasterRead.fatal) :
    (runLoop cfg st events).2 ≠ LoopRes.raised := by
  induction events generalizing st with
  | nil => simp [runLoop]
  | cons ev rest ih =>
      simp only [runLoop]
      split
      · simp
      · rcases hmb : masterBranch cfg st ev with st1 | st1 | st1
        · simp only [hmb]
          split
          · simp
          · exact ih _ fun e he => h e (List.mem_cons_of_mem ev he)
        · simp [hmb]
        · exact absurd hmb
            (masterBranch_ne_raised cfg st st1 ev
              (h ev (List.mem_cons_self ev rest)))

/-- **C4**, counterexample: an `OSError` on the controller read whose
`errno` is not `EIO` is *not* handled locally — it is re-raised (line 224)
and aborts the session, although no timeout was configured. -/
theorem fatal_read_aborts_counterexample :
    (runWithPty
        { timeoutS := none, stripAnsi := true, childStatus := 0,
          isatty := false, rawOk := false, origAttrs := 0, rawAttrs := 1 }
        [{ elapsed := 0, masterReady := true, masterRead := .fatal,
           stdinReady := false, stdinRead := .err, poll1 := false,
           poll2 := false, drain := [] }]).result =
      some (Except.error ()) :=
  rfl

/-- **C4**, amended: as long as no controller read raises a non-EIO
`OSError`, the session never aborts: EIO on the controller is treated as an
empty read, stdin read errors as "no data", controller write errors and
drain-loop errors are absorbed, so the run ends only by normal child exit or
by the timeout path. -/
theorem no_fatal_read_no_abort (cfg : RelayConfig) (events : List LoopEvent)
    (h : ∀ ev ∈ events, ev.masterRead ≠ MasterRead.fatal) :
    (runWithPty cfg events).result ≠ some (Except.error ()) := by
  have hr := runLoop_ne_raised cfg LoopState.start events h
  cases hres : (runLoop cfg LoopState.start events).2 <;>
    simp [runWithPty, hres] at hr ⊢

theorem no_fatal_read_no_abort_witness :
    (runWithPty
        { timeoutS := none, stripAnsi := true, childStatus := 3,
          isatty := true, rawOk := true, origAttrs := 0, rawAttrs := 1 }
        [{ elapsed := 0, masterReady := true, masterRead := .eio,
           stdinReady := true, stdinRead := .err, poll1 := false,
           poll2 := false, drain := [] }]).result ≠
      some (Except.error ()) :=
  no_fatal_read_no_abort _ _ (by decide)

/-- Which of the three outcomes the controller block takes; read off the
event alone (the decision at lines 216-235 depends only on readiness, the
read result and `p.poll()`, never on the stripper). -/
inductive BranchKind where
  | kCont
  | kBroke
  | kRaised
deriving DecidableEq, Repr

def MasterStep.kindOf : MasterStep → BranchKind
  | .cont _ => .kCont
  | .broke _ => .kBroke
  | .raised _ => .kRaised

def MasterStep.stateOf : MasterStep → LoopState
  | .cont s => s
  | .broke s => s
  | .raised s => s

def masterKind (ev : LoopEvent) : BranchKind :=
  if ev.masterReady then
    match ev.masterRead with
    | .fatal => .kRaised
    | .eio => if ev.poll1 then .kBroke else .kCont
    | .got d =>
        if d = [] then
          if ev.poll1 then .kBroke else .kCont
        else .kCont
  else .kCont

/-- The payload (if any) the stdin block of one iteration writes to the
controller endpoint. -/
def stdinChunk (cfg : RelayConfig) (ev : LoopEvent) : List (List Nat) :=
  if cfg.stdinPresent && ev.stdinReady then
    match ev.stdinRead with
    | .got d => if d = [] then [] else [d]
    | .err => []
  else []

/-- All payloads the loop forwards to the controller endpoint over a trace:
exactly the nonempty stdin reads of the iterations the loop actually
executes, each verbatim. -/
def forwards (cfg : RelayConfig) : List LoopEvent → List (List Nat)
  | [] => []
  | ev :: rest =>
      if cfg.timeoutHit ev then []
      else
        match masterKind ev with
        | .kRaised => []
        | .kBroke => []
        | .kCont =>
            stdinChunk cfg ev ++ if ev.poll2 then [] else forwards cfg rest

theorem RelayConfig.applyStrip_masterWrites (cfg : RelayConfig)
    (st : LoopState) (d : List Nat) :
    ((cfg.applyStrip st d).1).masterWrites = st.masterWrites := by
  unfold RelayConfig.applyStrip
  split_ifs <;> rfl

theorem masterBranch_kindOf (cfg : RelayConfig) (st : LoopState)
    (ev : LoopEvent) : (masterBranch cfg st ev).kindOf = masterKind ev := by
  unfold masterBranch masterKind
  cases ev.masterReady <;> rcases ev.masterRead with d | _ | _ <;>
    simp [MasterStep.kindOf] <;> split_ifs <;> simp [MasterStep.kindOf]

theorem masterBranch_stateOf_masterWrites (cfg : RelayConfig)
    (st : LoopState) (ev : LoopEvent) :
    (masterBranch cfg st ev).stateOf.masterWrites = st.masterWrites := by
  unfold masterBranch
  cases ev.masterReady <;> rcases ev.masterRead with d | _ | _ <;>
    simp [MasterStep.stateOf] <;> split_ifs <;>
      simp [MasterStep.stateOf, LoopState.writeStdout,
        RelayConfig.applyStrip_masterWrites]

theorem stdinBranch_masterWrites (cfg : RelayConfig) (st : LoopState)
    (ev : LoopEvent) :
    (stdinBranch cfg st ev).masterWrites =
      st.masterWrites ++ stdinChunk cfg ev := by
  unfold stdinBranch stdinChunk
  cases (cfg.stdinPresent && ev.stdinReady) <;>
    rcases ev.stdinRead with d | _ <;> simp
  split_ifs <;> simp

theorem drainFold_masterWrites (cfg : RelayConfig) (st : LoopState)
    (ds : List (List Nat)) :
    (drainFold cfg st ds).masterWrites = st.masterWrites := by
  induction ds generalizing st with
  | nil => rfl
  | cons d rest ih =>
      unfold drainFold
      split_ifs
      · rfl
      · rw [ih]
        split_ifs <;>
          simp [LoopState.writeStdout, RelayConfig.applyStrip_masterWrites]

theorem runLoop_masterWrites (cfg : RelayConfig) (st : LoopState)
    (events : List LoopEvent) :
    (runLoop cfg st events).1.masterWrites =
      st.masterWrites ++ forwards cfg events := by
  induction events generalizing st with
  | nil => simp [runLoop, forwards]
  | cons ev rest ih =>
      simp only [runLoop, forwards]
      split
      · simp
      · rcases hmb : masterBranch cfg st ev with st1 | st1 | st1
        · have hk : masterKind ev = BranchKind.kCont := by
            rw [← masterBranch_kindOf cfg st ev, hmb]
            rfl
          have hw : st1.masterWrites = st.masterWrites := by
            have := masterBranch_stateOf_masterWrites cfg st ev
            rw [hmb] at this
            exact this
          simp only [hmb, hk]
          split_ifs with hp
          · simp [drainFold_masterWrites, stdinBranch_masterWrites, hw, hp]
          · simp [ih, stdinBranch_masterWrites, hw, hp, List.append_assoc]
        · have hk : masterKind ev = BranchKind.kBroke := by
            rw [← masterBranch_kindOf cfg st ev, hmb]
            rfl
          have hw : st1.masterWrites = st.masterWrites := by
            have := masterBranch_stateOf_masterWrites cfg st ev
            rw [hmb] at this
            exact this
          simp [hmb, hk, hw]
        · have hk : masterKind ev = BranchKind.kRaised := by
            rw [← masterBranch_kindOf cfg st ev, hmb]
            rfl
          have hw : st1.masterWrites = st.masterWrites := by
            have := masterBranch_stateOf_masterWrites cfg st ev
            rw [hmb] at this
            exact this
          simp [hmb, hk, hw]

theorem forwards_strip_invariant (cfg : RelayConfig) (b : Bool)
    (events : List LoopEvent) :
    forwards { cfg with stripAnsi := b } events = forwards cfg events := by
  induction events with
  | nil => rfl
  | cons ev rest ih =>
      unfold forwards
      rw [show RelayConfig.timeoutHit { cfg with stripAnsi := b } ev =
        cfg.timeoutHit ev from rfl]
      rw [show stdinChunk { cfg with stripAnsi := b } ev =
        stdinChunk cfg ev from rfl]
      rw [ih]

theorem stdinChunk_mem (cfg : RelayConfig) (ev : LoopEvent) :
    ∀ w ∈ stdinChunk cfg ev, w ≠ [] ∧ ev.stdinRead = StdinRead.got w := by
  intro w hw
  unfold stdinChunk at hw
  split_ifs at hw
  · rcases hr : ev.stdinRead with d | _
    · rw [hr] at hw
      by_cases hd : d = []
      · simp [hd] at hw
      · simp [hd] at hw
        subst hw
        exact ⟨hd, rfl⟩
    · rw [hr] at hw
      simp at hw
  · simp at hw

theorem forwards_mem (cfg : RelayConfig) (events : List LoopEvent) :
    ∀ w ∈ forwards cfg events,
      w ≠ [] ∧ ∃ ev ∈ events, ev.stdinRead = StdinRead.got w := by
  induction events with
  | nil => simp [forwards]
  | cons ev rest ih =>
      intro w hw
      unfold forwards at hw
      by_cases ht : cfg.timeoutHit ev = true
      · rw [if_pos ht] at hw
        simp at hw
      · rw [if_neg ht] at hw
        rcases hk : masterKind ev with _ | _ | _
        · rw [hk] at hw
          replace hw : w ∈ stdinChunk cfg ev ++
              (if ev.poll2 = true then [] else forwards cfg rest) := hw
          rcases List.mem_append.mp hw with hl | hr2
          · obtain ⟨hne, hread⟩ := stdinChunk_mem cfg ev w hl
            exact ⟨hne, ev, List.mem_cons_self ev rest, hread⟩
          · by_cases hp : ev.poll2 = true
            · rw [if_pos hp] at hr2
              simp at hr2
            · rw [if_neg hp] at hr2
              obtain ⟨hne, e, he, hread⟩ := ih w hr2
              exact ⟨hne, e, List.mem_cons_of_mem ev he, hread⟩
        · rw [hk] at hw
          simp at hw
        · rw [hk] at hw
          simp at hw

/-- **C8**: the payloads written to the controller endpoint are independent
of the escape-stripping setting, and every one of them is verbatim a
nonempty chunk read from the caller's input descriptor in the trace — the
filter is never applied to caller→child data. -/
theorem stdin_forwarded_unfiltered (cfg : RelayConfig)
    (events : List LoopEvent) :
    ((runWithPty cfg events).masterWrites =
        (runWithPty { cfg with stripAnsi := !cfg.stripAnsi }
          events).masterWrites) ∧
      ∀ w ∈ (runWithPty cfg events).masterWrites,
        w ≠ [] ∧ ∃ ev ∈ events, ev.stdinRead = StdinRead.got w := by
  have h1 : (runWithPty cfg events).masterWrites = forwards cfg events := by
    simp [runWithPty, runLoop_masterWrites, LoopState.start]
  have h2 : (runWithPty { cfg with stripAnsi := !cfg.stripAnsi }
      events).masterWrites =
      forwards { cfg with stripAnsi := !cfg.stripAnsi } events := by
    simp [runWithPty, runLoop_masterWrites, LoopState.start]
  refine ⟨?_, ?_⟩
  · rw [h1, h2]
    exact (forwards_strip_invariant cfg (!cfg.stripAnsi) events).symm
  · rw [h1]
    exact forwards_mem cfg events

theorem stdin_forwarded_unfiltered_witness :
    ([0x61] : List Nat) ≠ [] ∧
      ∃ ev, ev ∈ [({ elapsed := 0, masterReady := false,
                       masterRead := .eio, stdinReady := true,
                       stdinRead := .got [0x61], poll1 := false,
                       poll2 := false, drain := [] } : LoopEvent)] ∧
        ev.stdinRead = StdinRead.got [0x61] :=
  (stdin_forwarded_unfiltered
      { timeoutS := none, stripAnsi := true, childStatus := 0,
        isatty := true, rawOk := true, origAttrs := 0, rawAttrs := 1 }
      [{ elapsed := 0, masterReady := false, masterRead := .eio,
         stdinReady := true, stdinRead := .got [0x61], poll1 := false,
         poll2 := false, drain := [] }]).2 [0x61] (by decide)

/-!
## `main` argument handling

`main` (lines 280-332) parses flags, and its `claude_args` REMAINDER is the
tail of the command line. Lines 314-325 are pure list manipulation: consume
one leading `"--"` separator, report a usage error when nothing remains
(`parser.error` raises `SystemExit` at line 319, before `pty.openpty` or
`subprocess.Popen` can run inside `run_with_pty` at line 326), otherwise
build `cmd = [args.claude_bin] + claude_args` and enter `run_with_pty`.
-/

/-- What `main` does after parsing: either the usage-error exit or a
`run_with_pty` session on the given command. A pseudo-terminal is allocated
and a child spawned only on the `runSession` branch. -/
inductive MainAction where
  | usageError
  | runSession (cmd : List String)
deriving DecidableEq, Repr

/-- `if claude_args and claude_args[0] == "--": claude_args = claude_args[1:]`. -/
def stripSeparator (args : List String) : List String :=
  match args with
  | a :: rest => if a = "--" then rest else a :: rest
  | [] => []

/-- Lines 314-326 of `main`. -/
def mainAction (claudeBin : String) (claudeArgs : List String) : MainAction :=
  let ca := stripSeparator claudeArgs
  if ca = [] then .usageError
  else .runSession (claudeBin :: ca)

/-- **C9**: when no target-program arguments remain after consuming an
optional leading `--` separator, `main` reports a usage error and exits; in
particular it never reaches the `runSession` branch, the only one that
allocates a pseudo-terminal or spawns a child. -/
theorem main_usage_error_before_spawn (bin : String) (args : List String)
    (h : stripSeparator args = []) :
    mainAction bin args = MainAction.usageError ∧
      ∀ cmd, mainAction bin args ≠ MainAction.runSession cmd := by
  refine ⟨by simp [mainAction, h], fun cmd hc => ?_⟩
  simp [mainAction, h] at hc

theorem main_usage_error_before_spawn_witness :
    mainAction "claude" ["--"] = MainAction.usageError ∧
      ∀ cmd, mainAction "claude" ["--"] ≠ MainAction.runSession cmd :=
  main_usage_error_before_spawn "claude" ["--"] (by decide)

end ClaudeCodeRun
